import Mathlib

set_option maxHeartbeats 1000000

/-!
Shallow embedding of the crush data model core: the Value union
(src/data/value.rs), its cast / equality / ordering / hashing contracts, the
uniq and zip stream operators (src/lib/stream/uniq.rs, src/lib/stream/zip.rs)
and the row renderer of src/stream_printer.rs.
-/

mutual

/-- Mirror of the ValueType enum (crate::data). The structured tags carry
their nested schema. The enum itself lives outside the provided sources;
its constructors are reconstructed from value.rs's value_type function. -/
inductive ValueType where
  | text | integer | time | duration | field | glob | regex | op
  | command | closure | file
  | stream (s : Schema)
  | rows (s : Schema)
  | row (s : Schema)
  | list (t : ValueType)
  | dict (k v : ValueType)
  | env | bool | float | empty | binary | typ

/-- A column list: each column is an optional name plus a cell type
(ColumnType in the source), folded into one mutual inductive. -/
inductive Schema where
  | nil
  | cons (name : Option String) (t : ValueType) (rest : Schema)

end

deriving instance DecidableEq for ValueType
deriving instance DecidableEq for Schema

/-- An OS path (Box of Path in the source): the raw representation plus
whether it is valid unicode; to_str succeeds exactly on unicode paths. -/
structure OsPath where
  repr : String
  isUnicode : Bool
deriving DecidableEq

/-- External collaborators and repository code that is outside the provided
sources, passed as explicit parameters: the glob engine's matcher
(crate::glob), filesystem canonicalization (std::fs), the derived equality
of Command and List and the recursive comparisons of Rows / Struct / List
(their modules are not under the provided sources), the regex compiler's
success predicate, the type-syntax parser (crate::data::value_type_parser),
and the renderers of time values, durations (crate::format::duration_format)
and type values. -/
structure World where
  globMatches : String → String → Bool
  canon : OsPath → Option OsPath
  commandEq : Nat → Nat → Bool
  listEq : Nat → Nat → Bool
  rowsCmp : Nat → Nat → Option Ordering
  structCmp : Nat → Nat → Option Ordering
  listCmp : Nat → Nat → Option Ordering
  regexOk : String → Bool
  parseType : String → Option ValueType
  timeFormat : Int → String
  durationFormat : Nat → String
  typeRender : ValueType → String

/-- Mirror of the Value enum of value.rs. Payloads that the verified
operations never inspect structurally (commands, closures, the buffered
rows behind a Rows or Struct value, list and dict contents, environments,
floats, binary readers) are abstracted to an opaque identifier, plus the
rendering string where to_string consults the payload, plus the nested
type information that value_type reads off the payload. Times are modelled
as an abstract instant (Int), durations as an abstract magnitude (Nat);
a compiled Regex is carried only as its source pattern, the component the
code ever reads. -/
inductive Value where
  | text (s : String)
  | integer (i : Int)
  | time (t : Int)
  | duration (d : Nat)
  | field (path : List String)
  | glob (pattern : String)
  | regex (pattern : String)
  | op (s : String)
  | command (id : Nat)
  | closure (id : Nat) (rendered : String)
  | stream (s : Schema) (id : Nat)
  | file (p : OsPath)
  | rows (s : Schema) (id : Nat)
  | strct (s : Schema) (id : Nat) (rendered : String)
  | list (elem : ValueType) (id : Nat) (rendered : String)
  | dict (kt vt : ValueType) (id : Nat) (rendered : String)
  | env (id : Nat) (rendered : String)
  | bool (b : Bool)
  | float (id : Nat) (rendered : String)
  | empty
  | binary (id : Nat)
  | typ (t : ValueType)
deriving DecidableEq

/-- Mirror of Value::value_type. -/
def Value.valueType : Value → ValueType
  | .text _ => .text
  | .integer _ => .integer
  | .time _ => .time
  | .duration _ => .duration
  | .field _ => .field
  | .glob _ => .glob
  | .regex _ => .regex
  | .op _ => .op
  | .command _ => .command
  | .closure _ _ => .closure
  | .stream s _ => .stream s
  | .file _ => .file
  | .rows s _ => .rows s
  | .strct s _ _ => .row s
  | .list t _ _ => .list t
  | .dict k v _ _ => .dict k v
  | .env _ _ => .env
  | .bool _ => .bool
  | .float _ _ => .float
  | .empty => .empty
  | .binary _ => .binary
  | .typ _ => .typ

/-- The bare tag of a type, with nested schema stripped; used to key the
cast conversion table. -/
inductive Tag where
  | text | integer | time | duration | field | glob | regex | op
  | command | closure | stream | file | rows | row | list | dict
  | env | bool | float | empty | binary | typ
deriving DecidableEq

/-- Tag of a ValueType. -/
def ValueType.tag : ValueType → Tag
  | .text => .text
  | .integer => .integer
  | .time => .time
  | .duration => .duration
  | .field => .field
  | .glob => .glob
  | .regex => .regex
  | .op => .op
  | .command => .command
  | .closure => .closure
  | .file => .file
  | .stream _ => .stream
  | .rows _ => .rows
  | .row _ => .row
  | .list _ => .list
  | .dict _ _ => .dict
  | .env => .env
  | .bool => .bool
  | .float => .float
  | .empty => .empty
  | .binary => .binary
  | .typ => .typ

/-- Tag of a value. -/
def Value.tag (v : Value) : Tag := v.valueType.tag

/-- Decimal digit characters of a natural number, most significant first,
with an explicit fuel counter for structural recursion; with fuel at
least n this is the digit list of the Display rendering of Rust
integers. -/
def natDecimalCore : Nat → Nat → List Char
  | 0, n => [Nat.digitChar n]
  | fuel + 1, n =>
    if n < 10 then [Nat.digitChar n]
    else natDecimalCore fuel (n / 10) ++ [Nat.digitChar (n % 10)]

/-- Decimal digit characters of a natural number, most significant first;
the digits of the Display rendering of Rust integers. -/
def natDecimalGo (n : Nat) : List Char := natDecimalCore n n

/-- Decimal rendering of a natural number. -/
def natDecimal (n : Nat) : String := ⟨natDecimalGo n⟩

/-- Decimal rendering of an integer, mirroring i128's Display: a minus
sign for negatives, digits with no leading zeros. -/
def intDecimal (i : Int) : String :=
  if i < 0 then "-" ++ natDecimal i.natAbs else natDecimal i.toNat

/-- Mirror of Value::to_string. The field rendering joins the path with
dots behind a percent sign; glob and regex renderings wrap the pattern in
star-style and r-style brace markers. Abstract payloads render through their
carried string or through the World's renderers. -/
def Value.render (w : World) : Value → String
  | .text s => s
  | .integer i => intDecimal i
  | .time t => w.timeFormat t
  | .field path => "%" ++ String.intercalate "." path
  | .glob g => "*\x7b" ++ g ++ "\x7d"
  | .regex r => "r\x7b" ++ r ++ "\x7d"
  | .op s => s
  | .command _ => "Command"
  | .file p => if p.isUnicode then p.repr else "<Broken file>"
  | .rows _ _ => "<Rows>"
  | .strct _ _ r => r
  | .closure _ r => r
  | .stream _ _ => "<Output>"
  | .list _ _ r => r
  | .duration d => w.durationFormat d
  | .env _ r => r
  | .bool b => if b then "true" else "false"
  | .dict _ _ _ r => r
  | .float _ r => r
  | .empty => "<empty>"
  | .binary _ => "<binary>"
  | .typ t => w.typeRender t

/-- Mirror of the Alignment enum of value.rs (named Align here to avoid a
library name). -/
inductive Align where
  | left
  | right
deriving DecidableEq

/-- Mirror of Value::alignment: times, durations and integers are
right-aligned, everything else left-aligned. -/
def Value.alignment : Value → Align
  | .time _ | .duration _ | .integer _ => .right
  | _ => .left

/-- Mirror of file_result_compare: canonicalize both paths and compare;
a path that fails to canonicalize is never equal. -/
def fileResultCompare (w : World) (f1 f2 : OsPath) : Bool :=
  match w.canon f1, w.canon f2 with
  | some p1, some p2 => p1 == p2
  | _, _ => false

/-- Mirror of the PartialEq implementation for Value. Glob against text
compares by pattern match, file against text and file against file by
canonicalized paths, Rows and Struct by their partial comparison being
Equal, and every pair not named by an arm — including two Empty, Type,
Env, Dict, Float, Stream or Closure values — is unequal. -/
def Value.eq (w : World) : Value → Value → Bool
  | .text a, .text b => a == b
  | .glob g, .text t => w.globMatches g t
  | .text t, .glob g => w.globMatches g t
  | .integer a, .integer b => a == b
  | .time a, .time b => a == b
  | .duration a, .duration b => a == b
  | .field a, .field b => a == b
  | .glob a, .glob b => a == b
  | .regex a, .regex b => a == b
  | .op a, .op b => a == b
  | .command a, .command b => w.commandEq a b
  | .list _ a _, .list _ b _ => w.listEq a b
  | .rows _ a, .rows _ b => w.rowsCmp a b == some .eq
  | .strct _ a _, .strct _ b _ => w.structCmp a b == some .eq
  | .file a, .file b => fileResultCompare w a b
  | .text a, .file b => fileResultCompare w ⟨a, true⟩ b
  | .file a, .text b => fileResultCompare w ⟨b, true⟩ a
  | .bool a, .bool b => a == b
  | _, _ => false

/-- Modelled from the spec: a canonical rank for each type tag ("Total
order is defined over tags"); the source's derived Ord for ValueType is
outside the provided sources, so the concrete ranking is one fixed
assignment in declaration order. -/
def Tag.rank : Tag → Nat
  | .text => 0
  | .integer => 1
  | .time => 2
  | .duration => 3
  | .field => 4
  | .glob => 5
  | .regex => 6
  | .op => 7
  | .command => 8
  | .closure => 9
  | .file => 10
  | .stream => 11
  | .rows => 12
  | .row => 13
  | .list => 14
  | .dict => 15
  | .env => 16
  | .bool => 17
  | .float => 18
  | .empty => 19
  | .binary => 20
  | .typ => 21

/-- Modelled from the spec: comparison of two value types by the canonical
rank of their tags. -/
def ValueType.rankCmp (t1 t2 : ValueType) : Ordering :=
  compare t1.tag.rank t2.tag.rank

/-- Lexicographic comparison of string lists (the derived Ord of a Vec of
strings, used for field paths). -/
def lexCompare : List String → List String → Ordering
  | [], [] => .eq
  | [], _ :: _ => .lt
  | _ :: _, [] => .gt
  | x :: xs, y :: ys =>
    match compare x y with
    | .eq => lexCompare xs ys
    | o => o

/-- Mirror of the PartialOrd implementation for Value: values of different
types order by the type comparison; same-typed ordered scalars compare
naturally; Command, Closure and Stream values are incomparable; Rows,
Struct and List delegate to their own partial comparisons; every
unhandled same-typed pair — floats included — is incomparable. -/
def Value.pcmp (w : World) (a b : Value) : Option Ordering :=
  if a.valueType ≠ b.valueType then some (ValueType.rankCmp a.valueType b.valueType)
  else
    match a, b with
    | .text v1, .text v2 => some (compare v1 v2)
    | .field v1, .field v2 => some (lexCompare v1 v2)
    | .glob v1, .glob v2 => some (compare v1 v2)
    | .regex v1, .regex v2 => some (compare v1 v2)
    | .integer v1, .integer v2 => some (compare v1 v2)
    | .time v1, .time v2 => some (compare v1 v2)
    | .op v1, .op v2 => some (compare v1 v2)
    | .file v1, .file v2 => some (compare v1.repr v2.repr)
    | .duration v1, .duration v2 => some (compare v1 v2)
    | .command _, .command _ => none
    | .closure _ _, _ => none
    | .stream _ _, _ => none
    | .rows _ v1, .rows _ v2 => w.rowsCmp v1 v2
    | .strct _ v1 _, .strct _ v2 _ => w.structCmp v1 v2
    | .list _ v1 _, .list _ v2 _ => w.listCmp v1 v2
    | .bool v1, .bool v2 => some (compare v1 v2)
    | _, _ => none

/-- The data a value feeds to the hasher. Two values get equal hashes for
every hasher exactly when they feed the same data, so the Hash half of the
hash/eq contract is equality of these traces. A text-like payload (text,
glob pattern, regex pattern, operator, rendered type) feeds its string;
a field feeds its string list; Command and Empty feed nothing; a file
feeds its path (component-normalized by the standard library; modelled at
the granularity of the raw representation, which is only relied on where
representations coincide). -/
inductive HashTrace where
  | str (s : String)
  | strs (l : List String)
  | int (i : Int)
  | time (t : Int)
  | dur (d : Nat)
  | bool (b : Bool)
  | path (p : String)
  | unit
deriving DecidableEq

/-- Mirror of ValueType::is_hashable (its module is outside the provided
sources, but the two panic guards of the Hash implementation pin down the
subset exactly): the scalar kinds hash, the container-like and mutable
kinds do not. -/
def ValueType.isHashable : ValueType → Bool
  | .text | .integer | .time | .field | .glob | .regex | .op
  | .command | .file | .duration | .bool | .typ | .empty => true
  | _ => false

/-- Mirror of the Hash implementation for Value: a panic (here none) when
the type is not hashable, otherwise the per-variant hashed data. -/
def Value.hashTrace (w : World) (v : Value) : Option HashTrace :=
  if !v.valueType.isHashable then none
  else
    match v with
    | .text s => some (.str s)
    | .integer i => some (.int i)
    | .time t => some (.time t)
    | .field f => some (.strs f)
    | .glob g => some (.str g)
    | .regex r => some (.str r)
    | .op o => some (.str o)
    | .command _ => some .unit
    | .file p => some (.path p.repr)
    | .duration d => some (.dur d)
    | .bool b => some (.bool b)
    | .empty => some .unit
    | .typ t => some (.str (w.typeRender t))
    | _ => none

/-- Digit accumulator for decimal parsing. -/
def parseDigitsGo : Nat → List Char → Option Nat
  | acc, [] => some acc
  | acc, c :: cs =>
    if c.isDigit then parseDigitsGo (acc * 10 + (c.toNat - 48)) cs else none

/-- Parse a nonempty all-digit character list as a natural number. -/
def parseNat (l : List Char) : Option Nat :=
  match l with
  | [] => none
  | _ => parseDigitsGo 0 l

/-- Largest i128 value. -/
def i128Max : Int := 2 ^ 127 - 1

/-- Smallest i128 value. -/
def i128Min : Int := -(2 ^ 127)

/-- Mirror of str::parse for i128: an optional sign, then decimal digits,
failing on empty digits, on a non-digit, and on overflow of the i128
range. -/
def parseI128 (s : String) : Option Int :=
  match s.data with
  | [] => none
  | c :: cs =>
    if c = '+' then
      (parseNat cs).bind fun n =>
        if (n : Int) ≤ i128Max then some (n : Int) else none
    else if c = '-' then
      (parseNat cs).bind fun n =>
        if i128Min ≤ -(n : Int) then some (-(n : Int)) else none
    else
      (parseNat (c :: cs)).bind fun n =>
        if (n : Int) ≤ i128Max then some (n : Int) else none

/-- The conversion table of Value::cast keyed by source and destination
tag: exactly the pairs with a dedicated match arm. -/
def supportedPair : Tag → Tag → Bool
  | .text, .file => true
  | .text, .glob => true
  | .text, .integer => true
  | .text, .field => true
  | .text, .op => true
  | .text, .regex => true
  | .text, .typ => true
  | .file, .text => true
  | .file, .glob => true
  | .file, .integer => true
  | .file, .op => true
  | .file, .regex => true
  | .glob, .text => true
  | .glob, .file => true
  | .glob, .integer => true
  | .glob, .op => true
  | .glob, .regex => true
  | .regex, .file => true
  | .regex, .glob => true
  | .regex, .integer => true
  | .regex, .text => true
  | .regex, .op => true
  | .integer, .text => true
  | .integer, .file => true
  | .integer, .glob => true
  | .integer, .field => true
  | .integer, .op => true
  | .integer, .regex => true
  | .typ, .text => true
  | _, _ => false

/-- Mirror of Value::cast: identity when the value type already equals the
target, otherwise the per-pair conversion arms, with every remaining pair
an Unimplemented conversion error. -/
def Value.cast (w : World) (v : Value) (t : ValueType) : Except String Value :=
  if v.valueType = t then .ok v
  else
    match v, t with
    | .text s, .file => .ok (.file ⟨s, true⟩)
    | .text s, .glob => .ok (.glob s)
    | .text s, .integer =>
      match parseI128 s with
      | some i => .ok (.integer i)
      | none => .error "Parse error"
    | .text s, .field => .ok (.field [s])
    | .text s, .op => .ok (.op s)
    | .text s, .regex => if w.regexOk s then .ok (.regex s) else .error "Invalid regex"
    | .text s, .typ =>
      match w.parseType s with
      | some tt => .ok (.typ tt)
      | none => .error "Parse error"
    | .file p, .text =>
      if p.isUnicode then .ok (.text p.repr) else .error "File name is not valid unicode"
    | .file p, .glob =>
      if p.isUnicode then .ok (.glob p.repr) else .error "File name is not valid unicode"
    | .file p, .integer =>
      if p.isUnicode then
        match parseI128 p.repr with
        | some i => .ok (.integer i)
        | none => .error "Parse error"
      else .error "File name is not valid unicode"
    | .file p, .op =>
      if p.isUnicode then .ok (.op p.repr) else .error "File name is not valid unicode"
    | .file p, .regex =>
      if p.isUnicode then
        if w.regexOk p.repr then .ok (.regex p.repr) else .error "Invalid regex"
      else .error "File name is not valid unicode"
    | .glob g, .text => .ok (.text g)
    | .glob g, .file => .ok (.file ⟨g, true⟩)
    | .glob g, .integer =>
      match parseI128 g with
      | some i => .ok (.integer i)
      | none => .error "Parse error"
    | .glob g, .op => .ok (.op g)
    | .glob g, .regex => if w.regexOk g then .ok (.regex g) else .error "Invalid regex"
    | .regex r, .file => .ok (.file ⟨r, true⟩)
    | .regex r, .glob => .ok (.glob r)
    | .regex r, .integer =>
      match parseI128 r with
      | some i => .ok (.integer i)
      | none => .error "Parse error"
    | .regex r, .text => .ok (.text r)
    | .regex r, .op => .ok (.op r)
    | .integer i, .text => .ok (.text (intDecimal i))
    | .integer i, .file => .ok (.file ⟨intDecimal i, true⟩)
    | .integer i, .glob => .ok (.glob (intDecimal i))
    | .integer i, .field => .ok (.field [intDecimal i])
    | .integer i, .op => .ok (.op (intDecimal i))
    | .integer i, .regex =>
      if w.regexOk (intDecimal i) then .ok (.regex (intDecimal i))
      else .error "Invalid regex"
    | .typ tt, .text => .ok (.text (w.typeRender tt))
    | _, _ => .error "Unimplemented conversion"

/-- The side conditions the spec attaches to the supported conversion
pairs, stated in the spec's own terms: file-sourced casts require a
unicode path, casts into integer require the decimal parse to succeed,
casts into regex require the pattern to compile, text to type-value
requires the type syntax to parse. For every other supported pair the
cast is unconditional. -/
def specCastPrecond (w : World) (v : Value) (t : ValueType) : Bool :=
  match v, t with
  | .text s, .integer => (parseI128 s).isSome
  | .text s, .regex => w.regexOk s
  | .text s, .typ => (w.parseType s).isSome
  | .file p, .integer => p.isUnicode && (parseI128 p.repr).isSome
  | .file p, .regex => p.isUnicode && w.regexOk p.repr
  | .file p, _ => p.isUnicode
  | .glob g, .integer => (parseI128 g).isSome
  | .glob g, .regex => w.regexOk g
  | .regex r, .integer => (parseI128 r).isSome
  | .integer i, .regex => w.regexOk (intDecimal i)
  | _, _ => true

/-- A row: the ordered cells of one record (Row in the source). -/
abbrev Row := List Value

/-- The derived equality of Row: equal lengths and pairwise equal cells
under Value equality. -/
def rowEq (w : World) (r1 r2 : Row) : Bool :=
  r1.length == r2.length && (List.zip r1 r2).all fun p => Value.eq w p.1 p.2

/-- The derived Hash of Row: the cells' hashed data in order; a panic
(none) as soon as one cell is unhashable. -/
def rowTrace (w : World) (r : Row) : Option (List HashTrace) :=
  r.mapM (Value.hashTrace w)

/-- A dedup key: the whole row when uniq got no column selector, one cell
when it got one. -/
inductive UniqKey where
  | whole (r : Row)
  | cell (v : Value)

/-- The key of a row under an optional column selector; the selected index
is in bounds for every row of a schema-conforming stream, so the out of
bounds case (a panic in the source) is totalized with an Empty cell. -/
def keyOf (idx : Option Nat) (r : Row) : UniqKey :=
  match idx with
  | none => .whole r
  | some i => .cell (r.getD i .empty)

/-- Equality of dedup keys, per the Value / Row equality contract. -/
def keyEq (w : World) : UniqKey → UniqKey → Bool
  | .whole a, .whole b => rowEq w a b
  | .cell a, .cell b => Value.eq w a b
  | _, _ => false

/-- Hashed data of a dedup key. -/
def keyTrace (w : World) : UniqKey → Option (List HashTrace)
  | .whole r => rowTrace w r
  | .cell v => (Value.hashTrace w v).map fun h => [h]

/-- Membership test of the seen HashSet: a stored key is found exactly
when it hashes like the probe and compares equal to it. (A HashSet probe
reaches an entry through the entry's hash; an entry that is eq-equal but
hashes differently is not found — the contract only coincides with plain
eq-lookup when the keys respect hash/eq coherence.) -/
def keyMatch (w : World) (stored probe : UniqKey) : Bool :=
  keyTrace w stored == keyTrace w probe && keyEq w stored probe

/-- What one invocation of uniq's run loop produced: the rows delivered to
the output, the number of send attempts, and the number of send failures
handed to the printer's diagnostic sink. -/
structure UniqOut where
  sent : List Row
  attempts : Nat
  failures : Nat
deriving DecidableEq

/-- Mirror of run in uniq.rs: read rows until end of stream; a row whose
key is not in the seen set has its key inserted and is sent, with a send
failure reported to the printer (not propagated) and the loop continuing;
send outcomes are an external schedule indexed by attempt number. -/
def uniqAux (w : World) (idx : Option Nat) (send : Nat → Bool) :
    List UniqKey → Nat → List Row → UniqOut
  | _, _, [] => ⟨[], 0, 0⟩
  | seen, k, r :: rest =>
    let key := keyOf idx r
    if seen.any fun s => keyMatch w s key then
      uniqAux w idx send seen k rest
    else
      let o := uniqAux w idx send (key :: seen) (k + 1) rest
      if send k then ⟨r :: o.sent, o.attempts + 1, o.failures⟩
      else ⟨o.sent, o.attempts + 1, o.failures + 1⟩

/-- Mirror of run in uniq.rs including its result: the loop body never
aborts, and run returns Ok whatever the send outcomes were. -/
def uniqRun (w : World) (idx : Option Nat) (send : Nat → Bool) (input : List Row) :
    UniqOut × Except String Unit :=
  (uniqAux w idx send [] 0 input, .ok ())

/-- Mirror of uniq in uniq.rs after argument parsing: the output stream is
initialized with the input stream's own column types, then run does the
work. -/
def uniqFull (w : World) (schema : Schema) (idx : Option Nat) (send : Nat → Bool)
    (input : List Row) : Schema × UniqOut × Except String Unit :=
  (schema, uniqRun w idx send input)

/-- The claim's reading of dedup restated over the input: a row is kept
exactly when no earlier input row (kept or not) has an equal key. -/
def specFirstOccAux (w : World) (idx : Option Nat) (earlier : List Row) :
    List Row → List Row
  | [] => []
  | r :: rest =>
    if earlier.any fun e => keyEq w (keyOf idx e) (keyOf idx r) then
      specFirstOccAux w idx (r :: earlier) rest
    else r :: specFirstOccAux w idx (r :: earlier) rest

/-- First-occurrence filtering against all earlier input rows. -/
def specFirstOcc (w : World) (idx : Option Nat) (input : List Row) : List Row :=
  specFirstOccAux w idx [] input

/-- The amended fact about dedup, stated over the emitted rows: a row is
kept exactly when no previously kept row has a key that both hashes the
same and compares equal. -/
def specSeenOccAux (w : World) (idx : Option Nat) (kept : List Row) :
    List Row → List Row
  | [] => []
  | r :: rest =>
    if kept.any fun e => keyMatch w (keyOf idx e) (keyOf idx r) then
      specSeenOccAux w idx kept rest
    else r :: specSeenOccAux w idx (r :: kept) rest

/-- First-occurrence filtering against the previously emitted rows. -/
def specSeenOcc (w : World) (idx : Option Nat) (input : List Row) : List Row :=
  specSeenOccAux w idx [] input

/-- Concatenation of two schemas, mirroring how zip builds its output
type: the first stream's columns followed by the second's. -/
def Schema.append : Schema → Schema → Schema
  | .nil, s2 => s2
  | .cons n t rest, s2 => .cons n t (Schema.append rest s2)

/-- Mirror of zip's read loop. Each iteration reads one row from each
input (both reads happen before either result is inspected, so a
successful read on one side is consumed even when the other side ended);
when both reads succeed the rows' cells are concatenated and sent, and a
failed send propagates as an error. Returns the sent rows, the result,
and the unread remainder of each input. -/
def zipGo (send : Nat → Bool) :
    Nat → List Row → List Row → List Row × Except String Unit × List Row × List Row
  | _, [], l2 => ([], .ok (), [], l2.tail)
  | _, _r1 :: t1, [] => ([], .ok (), t1, [])
  | k, r1 :: t1, r2 :: t2 =>
    if send k then
      let o := zipGo send (k + 1) t1 t2
      ((r1 ++ r2) :: o.1, o.2.1, o.2.2.1, o.2.2.2)
    else ([], .error "send failed", t1, t2)

/-- Mirror of zip in zip.rs after argument parsing: output schema is the
two input schemas appended, then the lock-step read loop runs. -/
def zipFull (s1 s2 : Schema) (send : Nat → Bool) (in1 in2 : List Row) :
    Schema × List Row × Except String Unit × List Row × List Row :=
  (Schema.append s1 s2, zipGo send 0 in1 in2)

/-- A run of n space characters. -/
def spaceRun (n : Nat) : String := String.mk (List.replicate n ' ')

/-- Mirror of the cell loop of print_row in stream_printer.rs: cells are
rendered left to right at the given column widths; the padding for the
cell at the final index is the empty string; a right-aligned cell puts
its padding first, a left-aligned cell puts it after; every cell except
the last is followed by one separator space. The nested-value collection
of the source is output bookkeeping that does not touch the line text and
is not modelled. -/
def printRowGo (w : World) (widths : List Nat) (n : Nat) : Nat → List Value → String
  | _, [] => ""
  | idx, c :: rest =>
    (match c.alignment with
     | .right =>
       (if idx = n - 1 then "" else spaceRun (widths.getD idx 0 - (c.render w).length)) ++
         c.render w ++ (if idx = n - 1 then "" else " ")
     | .left =>
       c.render w ++
         (if idx = n - 1 then ""
          else spaceRun (widths.getD idx 0 - (c.render w).length) ++ " ")) ++
      printRowGo w widths n (idx + 1) rest

/-- Mirror of print_row: the indentation prefix of four spaces per nesting
level followed by the rendered cells. -/
def printRow (w : World) (widths : List Nat) (cells : List Value) (indent : Nat) : String :=
  spaceRun (indent * 4) ++ printRowGo w widths cells.length 0 cells

/-- One cell as the spec's row-rendering words describe it: right-aligned
cells are left-padded to the column width, all others left-aligned
(right-padded). -/
def specCellRender (w : World) (width : Nat) (c : Value) : String :=
  let s := c.render w
  match c.alignment with
  | .right => spaceRun (width - s.length) ++ s
  | .left => s ++ spaceRun (width - s.length)

/-- The claimed row rendering, following the spec's words: indent by four
spaces per nesting level, pad every cell to its column width per its
alignment, separate columns by one space beyond the computed width. -/
def specRowRender (w : World) (widths : List Nat) (cells : List Value) (indent : Nat) : String :=
  spaceRun (indent * 4) ++
    String.intercalate " " (List.zipWith (specCellRender w) widths cells)

/-- The amended cell sequence: every cell but the structurally last is
padded to its column width per its alignment and followed by one
separator space; the last cell is printed bare — no padding and no
separator. -/
def specAmendedGo (w : World) : List Nat → List Value → String
  | _, [c] => c.render w
  | ws, c :: rest => specCellRender w (ws.headD 0) c ++ " " ++ specAmendedGo w ws.tail rest
  | _, [] => ""

/-- The amended row rendering: the four-spaces-per-level indent, then the
amended cell sequence. -/
def specRowRenderAmended (w : World) (widths : List Nat) (cells : List Value)
    (indent : Nat) : String :=
  spaceRun (indent * 4) ++ specAmendedGo w widths cells

/-- Modelled from the spec: the external glob engine's matcher, of which
the claims need only that some pattern matches a text it does not equal;
the single-star pattern matches every text, any other pattern matches
exactly itself. -/
def globMatchesModel (pat s : String) : Bool :=
  if pat == "*" then true else pat == s

/-- A concrete world: literal glob matching, canonicalization that strips
one leading dot-slash from unicode paths, identity-style external
comparisons, every regex compiling, no type syntax parsing. -/
def W0 : World where
  globMatches := globMatchesModel
  canon := fun p =>
    if p.isUnicode then
      if p.repr.startsWith "./" then some ⟨p.repr.drop 2, true⟩ else some p
    else none
  commandEq := fun a b => a == b
  listEq := fun a b => a == b
  rowsCmp := fun a b => if a == b then some .eq else none
  structCmp := fun a b => if a == b then some .eq else none
  listCmp := fun a b => if a == b then some .eq else none
  regexOk := fun _ => true
  parseType := fun _ => none
  timeFormat := fun _ => "1970-01-01 00:00:00 +0000"
  durationFormat := fun _ => "0"
  typeRender := fun _ => "type"

/-- The world W0 with a filesystem in which no path canonicalizes (for
example, no path exists). -/
def Wnone : World := { W0 with canon := fun _ => none }

/-- The world W0 with a command equality that identifies all commands. -/
def Wany : World := { W0 with commandEq := fun _ _ => true }

/-- A send schedule on which every send succeeds. -/
def allOk : Nat → Bool := fun _ => true

/-- The spec example's two-column schema: a text column and an integer
column. -/
def exSchema : Schema := .cons (some "x") .text (.cons (some "y") .integer .nil)

/-- The spec example's dedup input rows. -/
def exInput : List Row :=
  [[.text "a", .integer 1], [.text "b", .integer 2],
   [.text "a", .integer 1], [.text "c", .integer 3]]

/-- The spec example's expected dedup output rows. -/
def exOutput : List Row :=
  [[.text "a", .integer 1], [.text "b", .integer 2], [.text "c", .integer 3]]

theorem digitChar_spec (n : Nat) (h : n < 10) :
    (Nat.digitChar n).isDigit = true ∧ (Nat.digitChar n).toNat = n + 48 := by
  interval_cases n <;> exact ⟨by decide, by decide⟩

theorem parseDigitsGo_append (l1 l2 : List Char) (acc : Nat) :
    parseDigitsGo acc (l1 ++ l2) =
      (parseDigitsGo acc l1).bind fun a => parseDigitsGo a l2 := by
  induction l1 generalizing acc with
  | nil => simp [parseDigitsGo]
  | cons c cs ih =>
    by_cases hd : c.isDigit
    · simp [parseDigitsGo, hd, ih]
    · simp [parseDigitsGo, hd]

theorem parseDigitsGo_natDecimalCore (fuel : Nat) :
    ∀ n acc, n ≤ fuel → parseDigitsGo acc (natDecimalCore fuel n) =
      some (acc * 10 ^ (natDecimalCore fuel n).length + n) := by
  induction fuel with
  | zero =>
    intro n acc hn
    have h0 : n = 0 := by omega
    subst h0
    obtain ⟨hd, ht⟩ := digitChar_spec 0 (by omega)
    simp [natDecimalCore, parseDigitsGo, hd, ht]
  | succ fuel ih =>
    intro n acc hn
    by_cases h : n < 10
    · rw [natDecimalCore, if_pos h]
      obtain ⟨hd, ht⟩ := digitChar_spec n h
      simp [parseDigitsGo, hd, ht]
    · rw [natDecimalCore, if_neg h]
      rw [parseDigitsGo_append]
      have hdiv : n / 10 ≤ fuel := by
        have := Nat.div_lt_self (show 0 < n by omega) (show 1 < 10 by omega)
        omega
      rw [ih (n / 10) acc hdiv]
      obtain ⟨hd, ht⟩ := digitChar_spec (n % 10) (Nat.mod_lt n (by omega))
      simp [parseDigitsGo, hd, ht]
      rw [pow_succ, ← mul_assoc]
      generalize acc * 10 ^ (natDecimalCore fuel (n / 10)).length = Q
      omega

theorem parseDigitsGo_natDecimalGo (n : Nat) :
    ∀ acc, parseDigitsGo acc (natDecimalGo n) =
      some (acc * 10 ^ (natDecimalGo n).length + n) := by
  intro acc
  exact parseDigitsGo_natDecimalCore n n acc (Nat.le_refl n)

theorem natDecimalGo_ne_nil (n : Nat) : natDecimalGo n ≠ [] := by
  unfold natDecimalGo
  cases n with
  | zero => simp [natDecimalCore]
  | succ m =>
    rw [natDecimalCore]
    by_cases h : m + 1 < 10
    · simp [h]
    · simp [h]

theorem natDecimalCore_digits (fuel : Nat) :
    ∀ n, n ≤ fuel → ∀ c ∈ natDecimalCore fuel n, c.isDigit = true := by
  induction fuel with
  | zero =>
    intro n hn c hc
    have h0 : n = 0 := by omega
    subst h0
    simp [natDecimalCore] at hc
    subst hc
    exact (digitChar_spec 0 (by omega)).1
  | succ fuel ih =>
    intro n hn c hc
    rw [natDecimalCore] at hc
    by_cases h : n < 10
    · rw [if_pos h] at hc
      simp at hc
      subst hc
      exact (digitChar_spec n h).1
    · rw [if_neg h] at hc
      rcases List.mem_append.mp hc with hm | hm
      · have hdiv : n / 10 ≤ fuel := by
          have := Nat.div_lt_self (show 0 < n by omega) (show 1 < 10 by omega)
          omega
        exact ih (n / 10) hdiv c hm
      · simp at hm
        subst hm
        exact (digitChar_spec (n % 10) (Nat.mod_lt n (by omega))).1

theorem natDecimalGo_digits (n : Nat) : ∀ c ∈ natDecimalGo n, c.isDigit = true :=
  natDecimalCore_digits n n (Nat.le_refl n)

theorem parseNat_natDecimalGo (n : Nat) : parseNat (natDecimalGo n) = some n := by
  cases hl : natDecimalGo n with
  | nil => exact absurd hl (natDecimalGo_ne_nil n)
  | cons c cs =>
    have := parseDigitsGo_natDecimalGo n 0
    rw [hl] at this
    simpa [parseNat] using this

theorem natDecimalGo_head_not_sign (n : Nat) (c : Char) (cs : List Char)
    (hl : natDecimalGo n = c :: cs) : c ≠ '+' ∧ c ≠ '-' := by
  have hd : c.isDigit = true := natDecimalGo_digits n c (by rw [hl]; exact List.mem_cons_self c cs)
  constructor
  · rintro rfl; simp [Char.isDigit] at hd
  · rintro rfl; simp [Char.isDigit] at hd

theorem parseI128_data_cons (s : String) (c : Char) (cs : List Char)
    (hdata : s.data = c :: cs) :
    parseI128 s =
      (if c = '+' then
        (parseNat cs).bind fun n =>
          if (n : Int) ≤ i128Max then some (n : Int) else none
      else if c = '-' then
        (parseNat cs).bind fun n =>
          if i128Min ≤ -(n : Int) then some (-(n : Int)) else none
      else
        (parseNat (c :: cs)).bind fun n =>
          if (n : Int) ≤ i128Max then some (n : Int) else none) := by
  unfold parseI128
  rw [hdata]

theorem parseI128_intDecimal (i j : Int) (h : parseI128 (intDecimal i) = some j) :
    j = i := by
  unfold intDecimal at h
  by_cases hneg : i < 0
  · rw [if_pos hneg] at h
    have hdata : ("-" ++ natDecimal i.natAbs).data = '-' :: natDecimalGo i.natAbs := by
      rw [String.data_append]
      rfl
    rw [parseI128_data_cons _ _ _ hdata, if_neg (by decide), if_pos rfl,
      parseNat_natDecimalGo] at h
    simp only [Option.some_bind] at h
    split at h
    · cases h
      omega
    · cases h
  · rw [if_neg hneg] at h
    cases hl : natDecimalGo i.toNat with
    | nil => exact absurd hl (natDecimalGo_ne_nil _)
    | cons c cs =>
      obtain ⟨hp, hm⟩ := natDecimalGo_head_not_sign _ c cs hl
      have hdata : (natDecimal i.toNat).data = c :: cs := hl
      rw [parseI128_data_cons _ _ _ hdata, if_neg hp, if_neg hm, ← hl,
        parseNat_natDecimalGo] at h
      simp only [Option.some_bind] at h
      split at h
      · cases h
        omega
      · cases h

/-- C9: a File value whose path fails to canonicalize is equal to nothing
at all — not even to itself — even though the type claims full
equivalence; every equality involving such a file, in either operand
position, is false. -/
theorem c9_file_eq_irreflexive (w : World) (p : OsPath) (v : Value)
    (h : w.canon p = none) :
    Value.eq w (.file p) v = false ∧ Value.eq w v (.file p) = false := by
  have hf : ∀ q, fileResultCompare w p q = false := by
    intro q
    unfold fileResultCompare
    rw [h]
  have hf2 : ∀ q, fileResultCompare w q p = false := by
    intro q
    unfold fileResultCompare
    rw [h]
    cases w.canon q <;> rfl
  cases v <;> simp [Value.eq, hf, hf2]

theorem c9_file_eq_irreflexive_witness :
    Value.eq Wnone (.file ⟨"ghost", true⟩) (.file ⟨"ghost", true⟩) = false :=
  (c9_file_eq_irreflexive Wnone ⟨"ghost", true⟩ (.file ⟨"ghost", true⟩) rfl).1

/-- C4: values of different value types compare as the canonical rank
order of their type tags, whatever their contents; and two commands, two
closures, or two streams of the same stream type are incomparable — the
comparison is None, never a defaulted ordering. -/
theorem c4_cross_type_rank_and_unordered (w : World) (a b : Value) :
    (a.valueType ≠ b.valueType →
      Value.pcmp w a b = some (ValueType.rankCmp a.valueType b.valueType))
  ∧ (∀ i j, Value.pcmp w (.command i) (.command j) = none)
  ∧ (∀ i r j q, Value.pcmp w (.closure i r) (.closure j q) = none)
  ∧ (∀ sc i j, Value.pcmp w (.stream sc i) (.stream sc j) = none) := by
  refine ⟨?_, ?_, ?_, ?_⟩
  · intro h
    unfold Value.pcmp
    rw [if_pos h]
  · intro i j
    unfold Value.pcmp
    rw [if_neg (by simp [Value.valueType])]
  · intro i r j q
    unfold Value.pcmp
    rw [if_neg (by simp [Value.valueType])]
  · intro sc i j
    unfold Value.pcmp
    rw [if_neg (by simp [Value.valueType])]

theorem c4_cross_type_rank_witness :
    Value.pcmp W0 (.text "zzz") (.bool false) =
      some (ValueType.rankCmp ValueType.text ValueType.bool) :=
  (c4_cross_type_rank_and_unordered W0 (.text "zzz") (.bool false)).1 (by decide)

theorem zipGo_allOk_spec (l1 : List Row) : ∀ (k : Nat) (l2 : List Row),
    zipGo allOk k l1 l2 =
      (List.zipWith (fun a b => a ++ b) l1 l2, .ok (),
       if l2.length < l1.length then l1.drop (l2.length + 1) else [],
       if l1.length < l2.length then l2.drop (l1.length + 1) else []) := by
  induction l1 with
  | nil =>
    intro k l2
    cases l2 with
    | nil => simp [zipGo]
    | cons r2 t2 => simp [zipGo]
  | cons r1 t1 ih =>
    intro k l2
    cases l2 with
    | nil => simp [zipGo]
    | cons r2 t2 =>
      simp only [zipGo, allOk, if_true, ih (k + 1) t2, List.zipWith_cons_cons,
        List.length_cons, Prod.mk.injEq, Nat.add_lt_add_iff_right,
        List.drop_succ_cons, true_and, and_true]

/-- C6: with every send succeeding, zip's output schema is the first
input's schema followed by the second's, the rows are the cell-wise
concatenations of the two inputs' rows in lock step, and the output
length is the minimum of the two input lengths. -/
theorem c6_zip_lockstep (s1 s2 : Schema) (in1 in2 : List Row) :
    (zipFull s1 s2 allOk in1 in2).1 = Schema.append s1 s2
  ∧ (zipFull s1 s2 allOk in1 in2).2.1 = List.zipWith (fun a b => a ++ b) in1 in2
  ∧ (zipFull s1 s2 allOk in1 in2).2.1.length = min in1.length in2.length := by
  refine ⟨rfl, ?_, ?_⟩
  · show (zipGo allOk 0 in1 in2).1 = _
    rw [zipGo_allOk_spec]
  · show (zipGo allOk 0 in1 in2).1.length = _
    rw [zipGo_allOk_spec]
    exact List.length_zipWith _ _ _

/-- C10: both inputs are read before either read's outcome is checked, so
on the terminating round the longer input loses one extra row: with
inputs of unequal length, min-many pairs are emitted, the shorter side is
fully consumed, and the longer side's unread remainder starts after
position min(len) — the row at that position was consumed and discarded. -/
theorem c10_zip_extra_row_consumed (in1 in2 : List Row)
    (h : in1.length ≠ in2.length) :
    (zipGo allOk 0 in1 in2).1.length = min in1.length in2.length
  ∧ (in1.length < in2.length →
      (zipGo allOk 0 in1 in2).2.2.1 = [] ∧
      (zipGo allOk 0 in1 in2).2.2.2 = in2.drop (in1.length + 1))
  ∧ (in2.length < in1.length →
      (zipGo allOk 0 in1 in2).2.2.2 = [] ∧
      (zipGo allOk 0 in1 in2).2.2.1 = in1.drop (in2.length + 1)) := by
  refine ⟨?_, ?_, ?_⟩
  · rw [zipGo_allOk_spec]
    exact List.length_zipWith _ _ _
  · intro hlt
    have h1 : ¬ in2.length < in1.length := by omega
    simp [zipGo_allOk_spec, hlt, h1]
  · intro hlt
    have h1 : ¬ in1.length < in2.length := by omega
    simp [zipGo_allOk_spec, hlt, h1]

theorem c10_zip_extra_row_witness :
    (zipGo allOk 0 ([] : List Row) [[Value.empty]]).2.2.2 = [[Value.empty]].drop 1 :=
  ((c10_zip_extra_row_consumed [] [[Value.empty]] (by decide)).2.1 (by decide)).2

theorem uniqAux_attempts_send_independent (w : World) (idx : Option Nat)
    (send1 send2 : Nat → Bool) (input : List Row) :
    ∀ (k1 k2 : Nat) (seen : List UniqKey),
      (uniqAux w idx send1 seen k1 input).attempts =
        (uniqAux w idx send2 seen k2 input).attempts := by
  induction input with
  | nil => intro k1 k2 seen; rfl
  | cons r rest ih =>
    intro k1 k2 seen
    unfold uniqAux
    by_cases hm : (seen.any fun s => keyMatch w s (keyOf idx r)) = true
    · rw [if_pos hm, if_pos hm]
      exact ih k1 k2 seen
    · rw [if_neg hm, if_neg hm]
      have h1 := ih (k1 + 1) (k2 + 1) (keyOf idx r :: seen)
      cases hs1 : send1 k1 <;> cases hs2 : send2 k2 <;>
        simp [hs1, hs2, h1]

theorem uniqAux_failures_sent_attempts (w : World) (idx : Option Nat)
    (send : Nat → Bool) (input : List Row) :
    ∀ (k : Nat) (seen : List UniqKey),
      (uniqAux w idx send seen k input).failures +
        (uniqAux w idx send seen k input).sent.length =
      (uniqAux w idx send seen k input).attempts := by
  induction input with
  | nil => intro k seen; rfl
  | cons r rest ih =>
    intro k seen
    unfold uniqAux
    by_cases hm : (seen.any fun s => keyMatch w s (keyOf idx r)) = true
    · rw [if_pos hm]
      exact ih k seen
    · rw [if_neg hm]
      have h1 := ih (k + 1) (keyOf idx r :: seen)
      cases hs : send k <;> simp [hs] <;> omega

theorem zipGo_error_of_send_failure (send : Nat → Bool) (l1 : List Row) :
    ∀ (k : Nat) (l2 : List Row),
      (∃ j, j < min l1.length l2.length ∧ send (k + j) = false) →
      ∃ e, (zipGo send k l1 l2).2.1 = .error e := by
  induction l1 with
  | nil =>
    intro k l2 ⟨j, hj, _⟩
    simp at hj
  | cons r1 t1 ih =>
    intro k l2 hj
    cases l2 with
    | nil =>
      obtain ⟨j, hj, _⟩ := hj
      simp at hj
    | cons r2 t2 =>
      obtain ⟨j, hjlt, hjf⟩ := hj
      cases hs : send k with
      | false => exact ⟨"send failed", by simp [zipGo, hs]⟩
      | true =>
        cases j with
        | zero => rw [Nat.add_zero] at hjf; rw [hjf] at hs; cases hs
        | succ j' =>
          obtain ⟨e, he⟩ := ih (k + 1) t2
            ⟨j', by simp at hjlt ⊢; omega, by rw [← hjf]; ring_nf⟩
          exact ⟨e, by simp [zipGo, hs, he]⟩

/-- C8: a failed send in dedup is reported to the printer and the loop
keeps consuming input and attempting the remaining sends — run still
returns Ok and the number of send attempts is the same as under a
schedule with no failures, with every attempt either delivered or
reported; a failed send in zip is propagated: whenever some send within
the lock-step range fails, zip returns an error. -/
theorem c8_send_failure_policy (w : World) (idx : Option Nat)
    (send : Nat → Bool) (input in1 in2 : List Row) :
    (uniqRun w idx send input).2 = .ok ()
  ∧ (uniqAux w idx send [] 0 input).attempts =
      (uniqAux w idx allOk [] 0 input).attempts
  ∧ (uniqAux w idx send [] 0 input).failures +
      (uniqAux w idx send [] 0 input).sent.length =
      (uniqAux w idx send [] 0 input).attempts
  ∧ ((∃ j, j < min in1.length in2.length ∧ send j = false) →
      ∃ e, (zipGo send 0 in1 in2).2.1 = .error e) := by
  refine ⟨rfl, ?_, ?_, ?_⟩
  · exact uniqAux_attempts_send_independent w idx send allOk input 0 0 []
  · exact uniqAux_failures_sent_attempts w idx send input 0 []
  · intro ⟨j, hj, hf⟩
    exact zipGo_error_of_send_failure send in1 0 in2 ⟨j, hj, by simpa using hf⟩

theorem c8_send_failure_policy_witness :
    (uniqRun W0 none (fun _ => false) [[Value.empty]]).2 = .ok ()
  ∧ ∃ e, (zipGo (fun _ => false) 0 [[Value.empty]] [[Value.empty]]).2.1 = .error e :=
  ⟨(c8_send_failure_policy W0 none (fun _ => false) [[Value.empty]] [] []).1,
   (c8_send_failure_policy W0 none (fun _ => false) [[Value.empty]]
     [[Value.empty]] [[Value.empty]]).2.2.2 ⟨0, by decide, rfl⟩⟩

theorem uniqAux_sent_eq_specSeenOcc (w : World) (idx : Option Nat) (input : List Row) :
    ∀ (k : Nat) (kept : List Row),
      (uniqAux w idx allOk (kept.map (keyOf idx)) k input).sent =
        specSeenOccAux w idx kept input := by
  induction input with
  | nil => intro k kept; rfl
  | cons r rest ih =>
    intro k kept
    simp only [uniqAux, specSeenOccAux]
    have hcond : ((kept.map (keyOf idx)).any fun s => keyMatch w s (keyOf idx r)) =
        (kept.any fun e => keyMatch w (keyOf idx e) (keyOf idx r)) := by
      induction kept with
      | nil => rfl
      | cons e es ihe => simp [List.any_cons, ihe]
    rw [hcond]
    by_cases hm : (kept.any fun e => keyMatch w (keyOf idx e) (keyOf idx r)) = true
    · rw [if_pos hm, if_pos hm]
      exact ih k kept
    · rw [if_neg hm, if_neg hm]
      have h1 := ih (k + 1) (r :: kept)
      simp only [List.map_cons] at h1
      simp [allOk, h1]

theorem specSeenOccAux_sublist (w : World) (idx : Option Nat) (input : List Row) :
    ∀ kept : List Row, (specSeenOccAux w idx kept input).Sublist input := by
  induction input with
  | nil => intro kept; exact List.Sublist.refl []
  | cons r rest ih =>
    intro kept
    unfold specSeenOccAux
    by_cases hm : (kept.any fun e => keyMatch w (keyOf idx e) (keyOf idx r)) = true
    · rw [if_pos hm]
      exact (ih kept).cons r
    · rw [if_neg hm]
      exact (ih (r :: kept)).cons₂ r

/-- C5 (amended): uniq's output schema is the input schema unchanged, and
a row is emitted exactly when no previously emitted row's key both hashes
the same and compares equal — equivalently, the output is the
specSeenOcc subsequence of the input; on the spec's example (plain text
and integer keys, where equality and hashing agree) this is precisely the
first-occurrence subsequence. -/
theorem c5_uniq_first_seen_amended (w : World) (schema : Schema) (idx : Option Nat)
    (input : List Row) :
    (uniqFull w schema idx allOk input).1 = schema
  ∧ (uniqFull w schema idx allOk input).2.1.sent = specSeenOcc w idx input
  ∧ (uniqFull w schema idx allOk input).2.1.sent.Sublist input
  ∧ (uniqFull W0 exSchema none allOk exInput).2.1.sent = exOutput := by
  have hmain : ∀ (w' : World) (idx' : Option Nat) (inp : List Row),
      (uniqAux w' idx' allOk [] 0 inp).sent = specSeenOcc w' idx' inp := by
    intro w' idx' inp
    have := uniqAux_sent_eq_specSeenOcc w' idx' inp 0 []
    simpa [specSeenOcc] using this
  refine ⟨rfl, hmain w idx input, ?_, ?_⟩
  · show (uniqAux w idx allOk [] 0 input).sent.Sublist input
    rw [hmain w idx input]
    exact specSeenOccAux_sublist w idx input []
  · decide

/-- C5 counterexample: a glob key row that Value-equality identifies with
an earlier text key row is still emitted, because the two hash
differently and the seen HashSet does not find it; the claimed
first-occurrence-of-an-equal-key output drops it. -/
theorem c5_uniq_first_seen_counterexample :
    Value.eq W0 (.text "ab") (.glob "*") = true
  ∧ (uniqRun W0 none allOk [[Value.text "ab"], [Value.glob "*"]]).1.sent.length = 2
  ∧ (specFirstOcc W0 none [[Value.text "ab"], [Value.glob "*"]]).length = 1 := by
  decide

/-- C1 (amended): for hashable values of the same variant, as long as the
variant is not File, equality implies equal hashed data; the cross-variant
glob-text and file-text coercions and the canonicalized File-File
comparison are exactly the equalities that do not respect hashing. -/
theorem c1_hash_eq_coherent_amended (w : World) (a b : Value)
    (htag : a.tag = b.tag) (hfile : a.tag ≠ Tag.file)
    (hh : a.valueType.isHashable = true)
    (heq : Value.eq w a b = true) :
    Value.hashTrace w a = Value.hashTrace w b := by
  cases a <;> cases b <;>
    simp_all [Value.tag, Value.valueType, ValueType.tag, ValueType.isHashable,
      Value.eq, Value.hashTrace]

theorem c1_hash_eq_coherent_amended_witness :
    Value.hashTrace Wany (.command 1) = Value.hashTrace Wany (.command 2) :=
  c1_hash_eq_coherent_amended Wany (.command 1) (.command 2) rfl (by decide) rfl rfl

/-- C1 counterexample: the glob star pattern equals the text it matches
under Value equality, both are hashable, and their hashed data differ, so
equal values get different hashes. -/
theorem c1_hash_eq_counterexample :
    Value.eq W0 (.glob "*") (.text "ab") = true
  ∧ (Value.glob "*").valueType.isHashable = true
  ∧ (Value.text "ab").valueType.isHashable = true
  ∧ Value.hashTrace W0 (.glob "*") ≠ Value.hashTrace W0 (.text "ab") := by
  decide

theorem headD_drop_eq_getD (l : List Nat) : ∀ idx : Nat, (l.drop idx).headD 0 = l.getD idx 0 := by
  induction l with
  | nil => intro idx; cases idx <;> rfl
  | cons x xs ih =>
    intro idx
    cases idx with
    | zero => rfl
    | succ j => simpa using ih j

theorem printRowGo_cons (w : World) (ws : List Nat) (n idx : Nat) (c : Value)
    (rest : List Value) :
    printRowGo w ws n idx (c :: rest) =
      (match c.alignment with
       | .right =>
         (if idx = n - 1 then "" else spaceRun (ws.getD idx 0 - (c.render w).length)) ++
           c.render w ++ (if idx = n - 1 then "" else " ")
       | .left =>
         c.render w ++
           (if idx = n - 1 then ""
            else spaceRun (ws.getD idx 0 - (c.render w).length) ++ " ")) ++
        printRowGo w ws n (idx + 1) rest := rfl

theorem specAmendedGo_cons2 (w : World) (ws : List Nat) (c c2 : Value)
    (cs : List Value) :
    specAmendedGo w ws (c :: c2 :: cs) =
      specCellRender w (ws.headD 0) c ++ " " ++ specAmendedGo w ws.tail (c2 :: cs) := rfl

theorem printRowGo_amended (w : World) (cells : List Value) :
    ∀ (ws : List Nat) (idx n : Nat), n = idx + cells.length →
      printRowGo w ws n idx cells = specAmendedGo w (ws.drop idx) cells := by
  induction cells with
  | nil =>
    intro ws idx n _
    rfl
  | cons c rest ih =>
    intro ws idx n hn
    cases rest with
    | nil =>
      simp only [List.length_cons, List.length_nil, Nat.zero_add] at hn
      have hlast : idx = n - 1 := by omega
      rw [printRowGo_cons]
      simp only [if_pos hlast]
      cases c.alignment <;> simp [printRowGo, specAmendedGo]
    | cons c2 cs =>
      simp only [List.length_cons] at hn
      have hlast : ¬ idx = n - 1 := by omega
      rw [printRowGo_cons]
      simp only [if_neg hlast]
      rw [ih ws (idx + 1) n (by simp; omega), specAmendedGo_cons2,
        headD_drop_eq_getD ws idx, List.tail_drop]
      cases hal : c.alignment <;> simp [specCellRender, hal, String.append_assoc]

/-- C7 counterexample: in the last column the printed cell is never
padded, so a right-aligned integer narrower than its column width is not
right-aligned there; the spec-described rendering pads it. -/
theorem c7_last_column_counterexample :
    printRow W0 [1, 2] [Value.text "a", Value.integer 5] 0 = "a 5"
  ∧ specRowRender W0 [1, 2] [Value.text "a", Value.integer 5] 0 = "a  5"
  ∧ ("a 5" : String) ≠ "a  5" := by
  refine ⟨by decide, by decide, by decide⟩

/-- C7 (amended): a printed row is the four-spaces-per-level indent
followed by the cells, where every cell except the last is padded to its
column width — left-padded for integer, time and duration cells,
right-padded for all others — and followed by one separator space, and
the last cell is printed bare with no padding. -/
theorem c7_row_alignment_amended (w : World) (ws : List Nat) (cells : List Value)
    (indent : Nat) :
    printRow w ws cells indent = specRowRenderAmended w ws cells indent := by
  unfold printRow specRowRenderAmended
  rw [printRowGo_amended w cells ws 0 cells.length (by omega), List.drop_zero]

/-- C2: cast is the identity when the value's type already equals the
target; otherwise a pair outside the conversion table is rejected with
the Unimplemented conversion error (a returned error, not a panic), and a
pair inside the table succeeds exactly when its side conditions hold —
the file path is unicode where the source is a file, the decimal parse
succeeds for casts into integer, the pattern compiles for casts into
regex, the type syntax parses for text into type-value. -/
theorem c2_cast_total_table (w : World) (v : Value) (t : ValueType) :
    (v.valueType = t → Value.cast w v t = .ok v)
  ∧ (v.valueType ≠ t → supportedPair v.tag t.tag = false →
      Value.cast w v t = .error "Unimplemented conversion")
  ∧ (v.valueType ≠ t → supportedPair v.tag t.tag = true →
      ((∃ r, Value.cast w v t = .ok r) ↔ specCastPrecond w v t = true)) := by
  refine ⟨?_, ?_, ?_⟩
  · intro h
    unfold Value.cast
    rw [if_pos h]
  · intro h hs
    unfold Value.cast
    rw [if_neg h]
    cases v <;> cases t <;>
      first
        | rfl
        | simp_all [Value.tag, Value.valueType, ValueType.tag, supportedPair]
  · intro h hs
    unfold Value.cast
    rw [if_neg h]
    cases v <;> cases t <;>
      first
        | (exfalso
           revert hs
           simp [Value.tag, Value.valueType, ValueType.tag, supportedPair]
           done)
        | (simp only [specCastPrecond]
           repeat' split
           all_goals simp_all
           done)

theorem c2_cast_total_table_witness :
    Value.cast W0 (.bool true) .time = .error "Unimplemented conversion"
  ∧ Value.cast W0 (.text "5") .text = .ok (.text "5") :=
  ⟨(c2_cast_total_table W0 (.bool true) .time).2.1 (by decide) (by decide),
   (c2_cast_total_table W0 (.text "5") .text).1 rfl⟩


/-- C3 counterexample: text and integer support casts in both directions,
yet casting the text value abc to integer fails outright, so a value
whose tag pair is in the table (with the inverse also supported) need not
cast successfully. -/
theorem c3_roundtrip_counterexample :
    supportedPair Tag.text Tag.integer = true
  ∧ supportedPair Tag.integer Tag.text = true
  ∧ Value.cast W0 (.text "abc") .integer = .error "Parse error" := by
  refine ⟨by decide, by decide, by rfl⟩

/-- C3 (amended): when both directions of the pair are supported, the
destination is not integer (casts into integer normalize the numeral, so
for example the text 007 comes back as 7), and neither side is the
externally parsed type-value kind, a round trip whose two casts both
succeed reproduces the original value's rendering. -/
theorem c3_roundtrip_render_amended (w : World) (v : Value) (t : ValueType)
    (v1 v2 : Value)
    (hfwd : supportedPair v.tag t.tag = true)
    (hback : supportedPair t.tag v.tag = true)
    (hint : t.tag ≠ Tag.integer)
    (htyp1 : v.tag ≠ Tag.typ) (htyp2 : t.tag ≠ Tag.typ)
    (h1 : Value.cast w v t = .ok v1)
    (h2 : Value.cast w v1 v.valueType = .ok v2) :
    Value.render w v2 = Value.render w v := by
  cases v <;> cases t <;>
    first
      | (exfalso
         revert hfwd hback hint htyp1 htyp2
         simp [Value.tag, Value.valueType, ValueType.tag, supportedPair]
         done)
      | (simp only [Value.cast, Value.valueType, reduceCtorEq, reduceIte,
           Except.ok.injEq] at h1
         repeat' split at h1
         all_goals try simp only [Except.ok.injEq] at h1
         all_goals
           first
             | (exact absurd h1 (by simp))
             | (subst h1
                simp only [Value.cast, Value.valueType, reduceCtorEq, reduceIte,
                  Except.ok.injEq] at h2
                repeat' split at h2
                all_goals try simp only [Except.ok.injEq] at h2
                all_goals
                  first
                    | (exact absurd h2 (by simp))
                    | (subst h2
                       first
                         | rfl
                         | (simp_all [Value.render]
                            done)
                         | (rename_i hj
                            have hji := parseI128_intDecimal _ _ hj
                            subst hji
                            rfl)))
         done)

theorem c3_roundtrip_render_amended_witness :
    Value.render W0 (.glob "g") = Value.render W0 (.glob "g") :=
  c3_roundtrip_render_amended W0 (.glob "g") .text (.text "g") (.glob "g")
    (by decide) (by decide) (by decide) (by decide) (by decide) rfl rfl
